import Mathlib

/-!
Shallow embedding of the Reflex reaction-time game (src/src/main.c) and
verification of its specification claims.

Conventions used throughout:
* C unsigned integers are modelled as `Nat`, with explicit `% 2^w`
  reductions exactly at the points where the C code converts between
  widths (e.g. passing a `uint32_t` to a `uint16_t` parameter).
* C `int8_t` accelerometer arithmetic is modelled on `Int` with an
  explicit wrap-to-`[-128, 127]` function applied where C performs a
  narrowing conversion back to `int8_t`.
* The polled joystick is modelled as a stream `Nat → Nat` giving the raw
  input bit field returned by `joystick_read()` at each successive poll.
* Busy loops (`while` loops whose exit depends on input) are modelled by
  structural recursion on an explicit fuel argument; exhausting the fuel
  returns the same result as the loop never terminating would.
-/

namespace Reflex

/-! ### Joystick bit masks

The bit masks come from the board support library (`joystick.h`), which is
outside the repository; all the code needs is that the three actions occupy
distinct bits of the byte returned by `joystick_read()`. -/

def JOYSTICK_CENTER : Nat := 1

def JOYSTICK_UP : Nat := 2

def JOYSTICK_DOWN : Nat := 4

/-! ### Menu navigation (`handle_menu`, main.c lines 600-635)

`selectedIndex` is a C `int`, so it is modelled as `Int`; the update
expressions are translated literally. -/

def MENU_ITEM_COUNT : Int := 5

/-- Direction events consumed by the menu navigation state machine. -/
inductive MenuEvent
| up
| down
deriving DecidableEq

/-- Update of `selectedIndex` performed by `handle_menu` on a fired
navigation event: `(selectedIndex + 1) % MENU_ITEM_COUNT` on Down and
`(selectedIndex - 1 + MENU_ITEM_COUNT) % MENU_ITEM_COUNT` on Up. -/
def menuNav (i : Int) : MenuEvent → Int
  | .down => (i + 1) % MENU_ITEM_COUNT
  | .up => (i - 1 + MENU_ITEM_COUNT) % MENU_ITEM_COUNT

/-! ### Edge detection in `handle_menu`

`previous_joy` starts at `0xFF` and is set to the current raw byte after
every poll, so at poll `k` the stored previous value is `j (k-1)` (and
`0xFF` at poll 0).  A branch of the `if/else if` chain runs only on the
0-to-1 transition of its bit, and the chain gives Down priority over Up,
and Up priority over Center. -/

def prevJoy (j : Nat → Nat) : Nat → Nat
  | 0 => 255
  | k + 1 => j k

/-- Condition of the Down branch: `(joy & JOYSTICK_DOWN) && !(previous_joy & JOYSTICK_DOWN)`. -/
def downEdge (j : Nat → Nat) (k : Nat) : Bool :=
  decide (j k &&& JOYSTICK_DOWN ≠ 0) && decide (prevJoy j k &&& JOYSTICK_DOWN = 0)

/-- Condition tested by the Up branch: `(joy & JOYSTICK_UP) && !(previous_joy & JOYSTICK_UP)`. -/
def upEdge (j : Nat → Nat) (k : Nat) : Bool :=
  decide (j k &&& JOYSTICK_UP ≠ 0) && decide (prevJoy j k &&& JOYSTICK_UP = 0)

/-- Condition tested by the Center branch of `handle_menu`. -/
def centerEdge (j : Nat → Nat) (k : Nat) : Bool :=
  decide (j k &&& JOYSTICK_CENTER ≠ 0) && decide (prevJoy j k &&& JOYSTICK_CENTER = 0)

/-- The Down navigation action runs at poll `k` iff the Down branch is taken. -/
def firesDown (j : Nat → Nat) (k : Nat) : Bool := downEdge j k

/-- The Up navigation action runs at poll `k` iff the Down branch was not
taken (`else if`) and the Up edge condition holds. -/
def firesUp (j : Nat → Nat) (k : Nat) : Bool := !downEdge j k && upEdge j k

/-- The menu loop returns the selection at poll `k` iff neither direction
branch was taken and the Center edge condition holds. -/
def menuConfirms (j : Nat → Nat) (k : Nat) : Bool :=
  !downEdge j k && !upEdge j k && centerEdge j k

/-! ### Theme adaptation (`adjust_theme`, main.c lines 196-216) -/

/-- The two colors of the monochrome OLED driver. -/
inductive OledColor
| black
| white
deriving DecidableEq

/-- Process-wide foreground/background pair (`fontColor`, `backgroundColor`). -/
structure Theme where
  fontColor : OledColor
  backgroundColor : OledColor
deriving DecidableEq

/-- Palette chosen in a dark environment: white text on black background. -/
def nightTheme : Theme := ⟨OledColor.white, OledColor.black⟩

/-- Palette chosen in a bright environment: black text on white background. -/
def dayTheme : Theme := ⟨OledColor.black, OledColor.white⟩

/-- Translation of `adjust_theme`: given the `light_read()` value and the
theme in effect before the call, produce the return value (1 iff the font
color changed, at which point the C code also plays `notes[0]` for 200 ms)
and the theme in effect afterwards. -/
def adjust_theme (reading : Nat) (th : Theme) : Bool × Theme :=
  let th' := if reading < 125 then nightTheme else dayTheme
  (decide (th'.fontColor ≠ th.fontColor), th')

/-! ### Tilt detection (`init_tilt_calibration`, `is_board_tilted`,
main.c lines 170-184 and 266-272)

All six fields of `TiltState` are `int8_t`; `toInt8` performs the C
narrowing conversion (two's-complement wrap into `[-128, 127]`). -/

/-- Wrap an integer into the `int8_t` range, as the C conversion does. -/
def toInt8 (n : Int) : Int := (n + 128) % 256 - 128

/-- Calibration offsets stored in the global `tilt` structure. -/
structure TiltCal where
  xOffset : Int
  yOffset : Int
  zOffset : Int
deriving DecidableEq

/-- Translation of `init_tilt_calibration`: sample `(x, y, z)` while level
and store `xOffset = -x`, `yOffset = -y`, `zOffset = 64 - z`, each narrowed
to `int8_t`. -/
def init_tilt_calibration (x y z : Int) : TiltCal :=
  { xOffset := toInt8 (-x), yOffset := toInt8 (-y), zOffset := toInt8 (64 - z) }

/-- Offset-adjusted X reading: `tilt.x += tilt.xOffset` (int8 wrap). -/
def adjustedX (cal : TiltCal) (x : Int) : Int := toInt8 (x + cal.xOffset)

/-- Offset-adjusted Y reading: `tilt.y += tilt.yOffset` (int8 wrap). -/
def adjustedY (cal : TiltCal) (y : Int) : Int := toInt8 (y + cal.yOffset)

/-- Translation of `is_board_tilted`: sample `(x, y, z)`, add the
calibration offsets, and report a tilt iff the adjusted X or Y value is
outside `[-30, 30]`.  The Z sample is adjusted in the C code as well but
never tested. -/
def is_board_tilted (cal : TiltCal) (x y z : Int) : Bool :=
  decide (adjustedX cal x > 30) || decide (adjustedX cal x < -30)
    || decide (adjustedY cal y > 30) || decide (adjustedY cal y < -30)

/-! ### Speaker output (`play_note`, main.c lines 361-376)

`play_note(note, durationMs)` with `note > 0` runs
`while (t < durationMs*1000) { high; delay(note/4); low; delay(note/4); t += note; }`.
A `NoteTrace` records the externally observable effect of a call: how many
speaker-pin toggles it performed and how much time (in microseconds) its
delays consumed, under the standard model in which `delay32Us(0, d)`
advances time by `d` microseconds and everything else is instantaneous. -/

/-- Observable effect of one `play_note` call. -/
structure NoteTrace where
  toggles : Nat
  elapsedUs : Nat
deriving DecidableEq

/-- The square-wave loop of `play_note`, by structural recursion on fuel;
`limit` is `durationMs * 1000` and `t` is the loop counter.  Each
iteration toggles the pin twice and delays `2 * (note / 4)` microseconds
while crediting the counter with a full period `note`. -/
def playNoteLoop (note limit : Nat) : Nat → Nat → NoteTrace
  | _, 0 => ⟨0, 0⟩
  | t, fuel + 1 =>
    if t < limit then
      let rest := playNoteLoop note limit (t + note) fuel
      ⟨rest.toggles + 2, rest.elapsedUs + 2 * (note / 4)⟩
    else ⟨0, 0⟩

/-- Translation of `play_note`.  With `note = 0` it is a pure
`delay32Ms(0, durationMs)`; with `note > 0` it runs the square-wave loop.
Fuel `durationMs * 1000` is enough because the counter grows by
`note ≥ 1` each iteration. -/
def play_note (note durationMs : Nat) : NoteTrace :=
  if note > 0 then playNoteLoop note (durationMs * 1000) 0 (durationMs * 1000)
  else ⟨0, durationMs * 1000⟩

/-! ### High-score storage (`set_high_score`, `read_high_score`,
main.c lines 387-409)

The EEPROM is modelled as a byte store `Nat → Nat`; the code uses the
fixed two-byte region at offset 8.  `set_high_score` takes a `uint16_t`
parameter, so a caller passing a wider value implicitly reduces it
`% 65536`; the model makes that conversion explicit. -/

/-- Translation of `set_high_score`: split the 16-bit value big-endian
into a high and a low byte and write them at offsets 8 and 9. -/
def set_high_score (store : Nat → Nat) (value : Nat) : Nat → Nat :=
  let v := value % 65536
  let b0 := (v &&& 0xFF00) >>> 8
  let b1 := v &&& 0x00FF
  fun addr => if addr = 8 then b0 else if addr = 9 then b1 else store addr

/-- Translation of `read_high_score`: read the two bytes at offsets 8
and 9 into a `uint8_t` buffer (hence the `% 256`) and recombine them
big-endian. -/
def read_high_score (store : Nat → Nat) : Nat :=
  ((store 8 % 256) <<< 8) ||| (store 9 % 256)

/-! ### Game round result step (`start_game`, main.c lines 549-568)

After measuring `reactionTimeMs` (a `uint32_t`), the Result step compares
it with the current high score and, on a new record, persists it through
`set_high_score`'s `uint16_t` parameter. -/

/-- New-record test of `start_game`:
`(reactionTimeMs < highScoreMs) || (highScoreMs == 0)`. -/
def newRecord (highScoreMs reactionTimeMs : Nat) : Bool :=
  decide (reactionTimeMs < highScoreMs) || decide (highScoreMs = 0)

/-- Result step of one round: read the current high score from the store,
apply the new-record test, and on success persist the measured time (whose
implicit `uint16_t` conversion happens inside `set_high_score`).  Returns
the store after the round and whether a record was declared. -/
def gameRound (store : Nat → Nat) (reactionTimeMs : Nat) : (Nat → Nat) × Bool :=
  if newRecord (read_high_score store) reactionTimeMs then
    (set_high_score store reactionTimeMs, true)
  else (store, false)

/-! ### Pre-stimulus delay (`start_game`, main.c lines 542-544) -/

/-- Translation of `randomDelay = (rand() % 3000) + 500`, as a function of
the nonnegative value returned by `rand()`. -/
def randomDelay (r : Nat) : Nat := r % 3000 + 500

/-! ### Reaction-time measurement (`measure_reaction_time` and
`wait_for_joystick_center_click`, main.c lines 283-287 and 421-436)

`measure_reaction_time` resets and starts a 1 ms-resolution counter and
then calls `wait_for_joystick_center_click`, which polls
`joystick_read()` and sleeps 1 ms after each failed poll; the counter is
read when the wait returns.  Under the model in which poll `k` happens at
counter value `k`, the returned counter value is the index of the poll on
which the wait loop exits.  The loop is modelled with fuel (one unit per
poll); `none` means the confirm input was never pressed within the given
number of polls. -/

/-- Translation of the polling loop of `wait_for_joystick_center_click`,
started at poll index `t`. -/
def wait_for_joystick_center_click (j : Nat → Nat) : Nat → Nat → Option Nat
  | _, 0 => none
  | t, fuel + 1 =>
    if j t &&& JOYSTICK_CENTER = 0 then wait_for_joystick_center_click j (t + 1) fuel
    else some t

/-- Translation of `measure_reaction_time`: reset and start the counter,
wait for the confirm input, and return the counter value (the index of the
poll on which the wait exits). -/
def measure_reaction_time (j : Nat → Nat) (fuel : Nat) : Option Nat :=
  wait_for_joystick_center_click j 0 fuel

/-! ### Concrete input streams and stores used as test inputs -/

/-- Joystick stream with the confirm (center) button held down from before
the timer is armed. -/
def heldStream : Nat → Nat := fun _ => JOYSTICK_CENTER

/-- Joystick stream on which the confirm button is first pressed at poll 2. -/
def lateStream : Nat → Nat := fun k => if k < 2 then 0 else JOYSTICK_CENTER

/-- Joystick stream on which Up and Down are pressed simultaneously at
poll 1 and held from then on. -/
def holdBothStream : Nat → Nat :=
  fun k => if k = 0 then 0 else JOYSTICK_UP ||| JOYSTICK_DOWN

/-- EEPROM whose bytes are all zero, so the stored high score decodes to 0. -/
def zeroStore : Nat → Nat := fun _ => 0

/-! ### Helper lemmas -/

/-- Adding the calibration offset `-x` (narrowed to `int8_t`) back to the
reference reading `x` always yields 0 after the `int8_t` wrap. -/
lemma toInt8_add_neg (x : Int) : toInt8 (x + toInt8 (-x)) = 0 := by
  unfold toInt8
  omega

/-- Selecting the high byte and shifting it down is the same as shifting
down and masking the low byte. -/
lemma and_ff00_shiftRight (w : Nat) : (w &&& 0xFF00) >>> 8 = (w >>> 8) &&& 0xFF := by
  apply Nat.eq_of_testBit_eq
  intro i
  simp only [Nat.testBit_shiftRight, Nat.testBit_and]
  have h : (0xFF00 : Nat) = (0xFF : Nat) <<< 8 := by decide
  rw [h, Nat.testBit_shiftLeft]
  simp

/-- Writing any value and reading it back yields the value reduced to the
16 bits that the two-byte big-endian encoding can hold. -/
lemma read_high_score_set (store : Nat → Nat) (v : Nat) :
    read_high_score (set_high_score store v) = v % 65536 := by
  have e8 : set_high_score store v 8 = ((v % 65536) &&& 0xFF00) >>> 8 := by
    simp [set_high_score]
  have e9 : set_high_score store v 9 = (v % 65536) &&& 0x00FF := by
    simp [set_high_score]
  have hb0 : ((v % 65536) &&& 0xFF00) >>> 8 = ((v % 65536) / 256) % 256 := by
    rw [and_ff00_shiftRight, Nat.shiftRight_eq_div_pow]
    have h := Nat.and_pow_two_sub_one_eq_mod ((v % 65536) / 2 ^ 8) 8
    norm_num at h ⊢
    exact h
  have hb1 : (v % 65536) &&& 0x00FF = (v % 65536) % 256 := by
    have h := Nat.and_pow_two_sub_one_eq_mod (v % 65536) 8
    norm_num at h ⊢
    exact h
  unfold read_high_score
  rw [e8, e9, hb0, hb1, Nat.shiftLeft_eq]
  rw [mul_comm _ (2 ^ 8)]
  rw [← Nat.mul_add_lt_is_or (b := (v % 65536) % 256 % 256) (by omega)]
  omega

/-- Characterisation of the wait loop: when it returns `some k`, the
confirm bit is set at poll `k` and clear at every earlier poll since the
loop started. -/
lemma wait_some (j : Nat → Nat) :
    ∀ fuel t k : Nat, wait_for_joystick_center_click j t fuel = some k →
      t ≤ k ∧ j k &&& JOYSTICK_CENTER ≠ 0 ∧
        ∀ m, t ≤ m → m < k → j m &&& JOYSTICK_CENTER = 0 := by
  intro fuel
  induction fuel with
  | zero =>
    intro t k h
    simp [wait_for_joystick_center_click] at h
  | succ n ih =>
    intro t k h
    simp only [wait_for_joystick_center_click] at h
    by_cases hc : j t &&& JOYSTICK_CENTER = 0
    · rw [if_pos hc] at h
      obtain ⟨h1, h2, h3⟩ := ih (t + 1) k h
      refine ⟨by omega, h2, ?_⟩
      intro m hm hmk
      rcases Nat.eq_or_lt_of_le hm with he | hl
      · rw [← he]
        exact hc
      · exact h3 m hl hmk
    · rw [if_neg hc] at h
      have hk : t = k := by
        injection h
      subst hk
      exact ⟨Nat.le_refl _, hc, fun m hm hmk => absurd (Nat.lt_of_le_of_lt hm hmk) (lt_irrefl _)⟩

/-- Closed form for the square-wave loop: with a positive period and
enough fuel (one unit per poll suffices since the counter advances by at
least 1 per iteration), the loop runs `⌈(limit - t) / note⌉` iterations,
each contributing two pin toggles and `2 * (note / 4)` microseconds. -/
lemma playNoteLoop_closed (note : Nat) (hn : 0 < note) (limit : Nat) :
    ∀ fuel t : Nat, limit ≤ t + fuel →
      playNoteLoop note limit t fuel =
        ⟨2 * ((limit - t + note - 1) / note),
          ((limit - t + note - 1) / note) * (2 * (note / 4))⟩ := by
  intro fuel
  induction fuel with
  | zero =>
    intro t h
    have h0 : limit - t = 0 := by omega
    have h1 : (note - 1) / note = 0 := Nat.div_eq_of_lt (by omega)
    simp [playNoteLoop, h0, h1]
  | succ n ih =>
    intro t h
    simp only [playNoteLoop]
    by_cases ht : t < limit
    · rw [if_pos ht]
      rw [ih (t + note) (by omega)]
      have hc : (limit - t + note - 1) / note = (limit - (t + note) + note - 1) / note + 1 := by
        by_cases hd : limit - t ≤ note
        · have h2 : limit - (t + note) = 0 := by omega
          have h3 : (0 + note - 1) / note = 0 := Nat.div_eq_of_lt (by omega)
          have h4 : (limit - t + note - 1) / note = 1 := by
            apply Nat.div_eq_of_lt_le
            · omega
            · omega
          rw [h2, h3, h4]
        · have h2 : limit - (t + note) + note - 1 = limit - t - 1 := by omega
          have h3 : limit - t + note - 1 = (limit - t - 1) + note := by omega
          rw [h2, h3, Nat.add_div_right _ hn]
      rw [hc]
      simp only [NoteTrace.mk.injEq]
      constructor
      · ring
      · ring
    · rw [if_neg ht]
      have h0 : limit - t = 0 := by omega
      have h1 : (note - 1) / note = 0 := Nat.div_eq_of_lt (by omega)
      simp [h0, h1]

/-- A single navigation step always lands back inside `[0, MENU_ITEM_COUNT)`. -/
lemma menuNav_range (i : Int) (e : MenuEvent) :
    0 ≤ menuNav i e ∧ menuNav i e < MENU_ITEM_COUNT := by
  cases e <;> simp only [menuNav, MENU_ITEM_COUNT] <;> omega

/-- The fold of navigation events over any start index inside the range
stays inside the range. -/
lemma foldl_menuNav_range (evs : List MenuEvent) :
    ∀ i : Int, 0 ≤ i → i < MENU_ITEM_COUNT →
      0 ≤ List.foldl menuNav i evs ∧ List.foldl menuNav i evs < MENU_ITEM_COUNT := by
  induction evs with
  | nil => intro i h0 h1; exact ⟨h0, h1⟩
  | cons e rest ih =>
    intro i h0 h1
    have := menuNav_range i e
    exact ih (menuNav i e) this.1 this.2

/-! ### Claim theorems -/

/-- C1, counterexample: with stored high score `H = 0` and measured time
`T = 70000` ms, the Result step declares a new record but the value it
persists is `4464 = 70000 % 2^16`, not the measured time `T`, so the
claim's "persists T as the new high score" fails as stated. -/
theorem C1_counterexample :
    (gameRound zeroStore 70000).2 = true
      ∧ read_high_score (gameRound zeroStore 70000).1 ≠ 70000
      ∧ read_high_score (gameRound zeroStore 70000).1 = 4464 := by
  decide

/-- C1, amended: the Result step declares a new record iff `T < H` or
`H = 0`; on a record it persists `T % 2^16` (which equals `T` whenever
`T < 2^16`, the range of `set_high_score`'s `uint16_t` parameter); when no
record is declared, the store — and hence the stored high score — is
unchanged by the round. -/
theorem C1_record_rule (store : Nat → Nat) (T : Nat) :
    ((gameRound store T).2 = true ↔
        (T < read_high_score store ∨ read_high_score store = 0))
      ∧ ((gameRound store T).2 = true →
          read_high_score (gameRound store T).1 = T % 65536)
      ∧ (T < 65536 → (gameRound store T).2 = true →
          read_high_score (gameRound store T).1 = T)
      ∧ ((gameRound store T).2 = false → (gameRound store T).1 = store) := by
  have hiff : newRecord (read_high_score store) T = true ↔
      (T < read_high_score store ∨ read_high_score store = 0) := by
    simp [newRecord]
  by_cases hb : newRecord (read_high_score store) T = true
  · simp only [gameRound, if_pos hb]
    refine ⟨?_, ?_, ?_, ?_⟩
    · simpa using hiff.mp hb
    · intro _
      exact read_high_score_set store T
    · intro hT _
      rw [read_high_score_set store T]
      exact Nat.mod_eq_of_lt hT
    · intro hfalse
      exact absurd hfalse (by simp)
  · simp only [gameRound, if_neg hb]
    refine ⟨?_, ?_, ?_, ?_⟩
    · constructor
      · intro hc
        exact absurd hc (by simp)
      · intro hor
        exact absurd (hiff.mpr hor) hb
    · intro hc
      exact absurd hc (by simp)
    · intro _ hc
      exact absurd hc (by simp)
    · intro _
      trivial

/-- C1, witness for the amended claim: with all-zero storage (stored high
score 0) and a measured time of 300 ms, the round persists exactly 300. -/
theorem C1_record_rule_witness :
    read_high_score (gameRound zeroStore 300).1 = 300 :=
  (C1_record_rule zeroStore 300).2.2.1 (by norm_num) (by decide)

/-- C2, counterexample: with the confirm button already held down when the
timer is armed, `measure_reaction_time` returns at counter value 0 (the
very first poll), so a button held from before arming does fire
immediately — the wait is not edge-triggered as claimed. -/
theorem C2_counterexample :
    heldStream 0 &&& JOYSTICK_CENTER ≠ 0
      ∧ measure_reaction_time heldStream 1 = some 0 := by
  decide

/-- C2, amended: the wait is level-triggered: whenever
`measure_reaction_time` returns counter value `k`, the confirm input is
pressed at poll `k` and was not pressed at any earlier poll since arming;
in particular a button already held at arming returns immediately with
counter value 0, and the returned value is the millisecond counter at the
first pressed poll. -/
theorem C2_level_triggered_wait (j : Nat → Nat) (fuel k : Nat)
    (h : measure_reaction_time j fuel = some k) :
    j k &&& JOYSTICK_CENTER ≠ 0 ∧ ∀ m, m < k → j m &&& JOYSTICK_CENTER = 0 := by
  obtain ⟨-, h2, h3⟩ := wait_some j fuel 0 k h
  exact ⟨h2, fun m hm => h3 m (Nat.zero_le m) hm⟩

/-- C2, witness: on the stream first pressed at poll 2 the measurement
returns counter 2: pressed there and at no earlier poll. -/
theorem C2_level_triggered_wait_witness :
    lateStream 2 &&& JOYSTICK_CENTER ≠ 0
      ∧ ∀ m, m < 2 → lateStream m &&& JOYSTICK_CENTER = 0 :=
  C2_level_triggered_wait lateStream 10 2 (by decide)

/-- C3, counterexample: `play_note 2272 500` advances logical time by
251056 µs, not the full `500 * 1000` µs = 500 ms that the claim states
(each cycle credits the loop counter with a full period `p` but only
delays `2 * (p / 4)` µs). -/
theorem C3_counterexample : (play_note 2272 500).elapsedUs ≠ 500 * 1000 := by
  have h := playNoteLoop_closed 2272 (by norm_num) (500 * 1000) (500 * 1000) 0 (by norm_num)
  unfold play_note
  rw [if_pos (by norm_num : (2272 : Nat) > 0), h]
  norm_num

/-- C3, amended: `play_note 0 d` produces no toggles and advances logical
time by exactly `d` ms; `play_note p d` with `p > 0` toggles the speaker
pin twice per cycle with `p / 4`-µs half-cycle delays, running
`⌈1000 d / p⌉` cycles, and therefore advances logical time by
`⌈1000 d / p⌉ * 2 * (p / 4)` µs — roughly half the nominal duration, not
exactly `d` ms. -/
theorem C3_play_note_timing :
    (∀ d : Nat, (play_note 0 d).toggles = 0 ∧ (play_note 0 d).elapsedUs = d * 1000)
      ∧ ∀ p d : Nat, 0 < p →
          (play_note p d).toggles = 2 * ((d * 1000 + p - 1) / p)
            ∧ (play_note p d).elapsedUs = ((d * 1000 + p - 1) / p) * (2 * (p / 4)) := by
  constructor
  · intro d
    simp [play_note]
  · intro p d hp
    have h := playNoteLoop_closed p hp (d * 1000) (d * 1000) 0 (by omega)
    unfold play_note
    rw [if_pos hp, h]
    simp

/-- C3, witness for the amended claim at `p = 2272`, `d = 500`. -/
theorem C3_play_note_timing_witness :
    (play_note 2272 500).toggles = 2 * ((500 * 1000 + 2272 - 1) / 2272)
      ∧ (play_note 2272 500).elapsedUs = ((500 * 1000 + 2272 - 1) / 2272) * (2 * (2272 / 4)) :=
  C3_play_note_timing.2 2272 500 (by norm_num)

/-- C4: starting from index 0, the selected index stays in
`[0, MENU_ITEM_COUNT)` after every sequence of Up/Down events; Down maps
`i` to `(i + 1) % N`, Up maps `i` to `(i - 1 + N) % N`, and at index 0 one
Up press yields `N - 1`. -/
theorem C4_menu_index_invariant :
    (∀ evs : List MenuEvent,
        0 ≤ List.foldl menuNav 0 evs ∧ List.foldl menuNav 0 evs < MENU_ITEM_COUNT)
      ∧ (∀ i : Int, menuNav i MenuEvent.down = (i + 1) % MENU_ITEM_COUNT
          ∧ menuNav i MenuEvent.up = (i - 1 + MENU_ITEM_COUNT) % MENU_ITEM_COUNT)
      ∧ menuNav 0 MenuEvent.up = MENU_ITEM_COUNT - 1 := by
  refine ⟨?_, ?_, ?_⟩
  · intro evs
    exact foldl_menuNav_range evs 0 (by decide) (by decide)
  · intro i
    exact ⟨rfl, rfl⟩
  · decide

/-- C5, counterexample: on the stream where Up and Down are both pressed
at poll 1 and held with unchanged raw bits, the Up bit transitions 0→1 at
poll 1, yet the Up navigation action never fires (the Down branch of the
`else if` chain consumes that poll), refuting "the corresponding
navigation action fires exactly once — on the poll where the bit
transitions 0→1". -/
theorem C5_counterexample :
    holdBothStream 1 &&& JOYSTICK_UP ≠ 0
      ∧ holdBothStream 0 &&& JOYSTICK_UP = 0
      ∧ holdBothStream 2 = holdBothStream 1
      ∧ firesUp holdBothStream 1 = false
      ∧ firesUp holdBothStream 2 = false
      ∧ firesDown holdBothStream 1 = true := by
  decide

/-- C5, amended: while the raw input byte is unchanged across consecutive
polls no direction action fires (so an action fires at most once per
hold, and never again until the bit is released and pressed anew, as the
release/press clauses make precise); Down always fires on the poll where
its bit transitions 0→1 relative to the previous poll's stored value, and
Up fires on its transition poll exactly when no simultaneous Down edge
occurs (Down has priority in the `else if` chain). -/
theorem C5_edge_detection :
    (∀ (j : Nat → Nat) (a k : Nat), a < k → (∀ m, a ≤ m → m ≤ k → j m = j a) →
        firesDown j k = false ∧ firesUp j k = false)
      ∧ (∀ (j : Nat → Nat) (k : Nat),
          j (k + 1) &&& JOYSTICK_DOWN ≠ 0 → j k &&& JOYSTICK_DOWN = 0 →
            firesDown j (k + 1) = true)
      ∧ (∀ (j : Nat → Nat) (k : Nat),
          j (k + 1) &&& JOYSTICK_UP ≠ 0 → j k &&& JOYSTICK_UP = 0 →
            (firesUp j (k + 1) = true ↔ downEdge j (k + 1) = false))
      ∧ (∀ (j : Nat → Nat) (k m : Nat), k < m →
          firesDown j k = true → firesDown j m = true →
            ∃ r, k ≤ r ∧ r < m ∧ j r &&& JOYSTICK_DOWN = 0)
      ∧ (∀ (j : Nat → Nat) (k m : Nat), k < m →
          firesUp j k = true → firesUp j m = true →
            ∃ r, k ≤ r ∧ r < m ∧ j r &&& JOYSTICK_UP = 0) := by
  refine ⟨?_, ?_, ?_, ?_, ?_⟩
  · intro j a k hak hstable
    obtain ⟨k', rfl⟩ : ∃ k', k = k' + 1 := ⟨k - 1, by omega⟩
    have h1 : j (k' + 1) = j a := hstable _ (by omega) (by omega)
    have h2 : j k' = j a := hstable _ (by omega) (by omega)
    constructor
    · simp only [firesDown, downEdge, prevJoy, h1, h2]
      by_cases hd : j a &&& JOYSTICK_DOWN = 0 <;> simp [hd]
    · simp only [firesUp, upEdge, prevJoy, h1, h2]
      by_cases hu : j a &&& JOYSTICK_UP = 0 <;> simp [hu]
  · intro j k h1 h2
    simp [firesDown, downEdge, prevJoy, h1, h2]
  · intro j k h1 h2
    cases hdE : downEdge j (k + 1) <;>
      simp [firesUp, upEdge, prevJoy, hdE, h1, h2]
  · intro j k m hkm h1 h2
    obtain ⟨m', rfl⟩ : ∃ m', m = m' + 1 := by
      cases m with
      | zero =>
        have hp : prevJoy j 0 = 255 := rfl
        simp [firesDown, downEdge, hp, JOYSTICK_DOWN] at h2
      | succ m' => exact ⟨m', rfl⟩
    refine ⟨m', by omega, by omega, ?_⟩
    simp only [firesDown, downEdge, prevJoy, Bool.and_eq_true, decide_eq_true_eq] at h2
    exact h2.2
  · intro j k m hkm h1 h2
    obtain ⟨m', rfl⟩ : ∃ m', m = m' + 1 := by
      cases m with
      | zero =>
        have hp : prevJoy j 0 = 255 := rfl
        simp [firesUp, upEdge, hp, JOYSTICK_UP] at h2
      | succ m' => exact ⟨m', rfl⟩
    refine ⟨m', by omega, by omega, ?_⟩
    simp only [firesUp, upEdge, prevJoy, Bool.and_eq_true, decide_eq_true_eq] at h2
    exact h2.2.2

/-- C5, witness for the amended claim: on the two-button stream the Down
action fires on its 0→1 transition poll. -/
theorem C5_edge_detection_witness :
    firesDown holdBothStream 1 = true :=
  C5_edge_detection.2.1 holdBothStream 0 (by decide) (by decide)

/-- C6: `adjust_theme` selects the night palette exactly when the
brightness reading is below 125, returns true iff the resulting palette
differs from the (valid) palette in effect before the call, and returns
false on a repeated call whose reading is on the same side of the
threshold. -/
theorem C6_theme_threshold (r : Nat) (th : Theme) :
    ((adjust_theme r th).2 = nightTheme ↔ r < 125)
      ∧ (th = dayTheme ∨ th = nightTheme →
          ((adjust_theme r th).1 = true ↔ (adjust_theme r th).2 ≠ th))
      ∧ ∀ r2 : Nat, (r < 125 ↔ r2 < 125) →
          (adjust_theme r2 (adjust_theme r th).2).1 = false := by
  refine ⟨?_, ?_, ?_⟩
  · by_cases hr : r < 125 <;> simp [adjust_theme, hr, nightTheme, dayTheme]
  · rintro (rfl | rfl) <;> by_cases hr : r < 125 <;>
      simp [adjust_theme, hr, nightTheme, dayTheme]
  · intro r2 hr2
    by_cases hr : r < 125
    · have hr2' : r2 < 125 := hr2.mp hr
      simp [adjust_theme, hr, hr2']
    · have hr2' : ¬r2 < 125 := fun hc => hr (hr2.mpr hc)
      simp [adjust_theme, hr, hr2']

/-- C6, witness at reading 50 (below threshold) starting from the day
palette, with a repeated same-side reading 60. -/
theorem C6_theme_threshold_witness :
    ((adjust_theme 50 dayTheme).1 = true ↔ (adjust_theme 50 dayTheme).2 ≠ dayTheme)
      ∧ (adjust_theme 60 (adjust_theme 50 dayTheme).2).1 = false :=
  ⟨(C6_theme_threshold 50 dayTheme).2.1 (Or.inl rfl),
    (C6_theme_threshold 50 dayTheme).2.2 60 (by norm_num)⟩

/-- C7: for every 16-bit value, `set_high_score` followed by
`read_high_score` returns the value: it is encoded big-endian into two
bytes at the fixed region (offsets 8 and 9) and decoded big-endian from
the same region. -/
theorem C7_score_roundtrip (store : Nat → Nat) (v : Nat) (hv : v < 65536) :
    read_high_score (set_high_score store v) = v := by
  rw [read_high_score_set]
  exact Nat.mod_eq_of_lt hv

/-- C7, witness: round trip of 1234. -/
theorem C7_score_roundtrip_witness :
    (1234 : Nat) < 65536 ∧ read_high_score (set_high_score zeroStore 1234) = 1234 :=
  ⟨by norm_num, C7_score_roundtrip zeroStore 1234 (by norm_num)⟩

/-- C8: after calibration at a reference orientation, `is_board_tilted`
sampled again at that orientation returns false; it returns true exactly
when the offset-adjusted X or Y reading (the `int8_t` value the code
computes) exceeds ±30; the Z axis is calibrated with offset
`64 - levelReading` but plays no part in the tilt decision. -/
theorem C8_tilt_threshold :
    (∀ x y z : Int, is_board_tilted (init_tilt_calibration x y z) x y z = false)
      ∧ (∀ (cal : TiltCal) (x y z : Int),
          is_board_tilted cal x y z = true ↔
            (adjustedX cal x > 30 ∨ adjustedX cal x < -30
              ∨ adjustedY cal y > 30 ∨ adjustedY cal y < -30))
      ∧ (∀ (cal : TiltCal) (x y z w : Int),
          is_board_tilted cal x y z = is_board_tilted cal x y w)
      ∧ (∀ x y z : Int, (init_tilt_calibration x y z).zOffset = toInt8 (64 - z)) := by
  refine ⟨?_, ?_, ?_, ?_⟩
  · intro x y z
    simp [is_board_tilted, adjustedX, adjustedY, init_tilt_calibration, toInt8_add_neg]
  · intro cal x y z
    simp only [is_board_tilted, Bool.or_eq_true, decide_eq_true_eq]
    tauto
  · intro cal x y z w
    rfl
  · intro x y z
    rfl

/-- C9, counterexample: the delay `(rand() % 3000) + 500` never attains
the value 3500, so the claimed closed interval `[500, 3500]` does not
describe the attainable values. -/
theorem C9_counterexample : ¬∃ r : Nat, randomDelay r = 3500 := by
  rintro ⟨r, h⟩
  unfold randomDelay at h
  omega

/-- C9, amended: every delay the code can produce lies in `[500, 3499]`,
and every value of `[500, 3499]` is attainable — the delay is
`500 + uniform(0, 3000)`, i.e. uniform over the half-open interval
`[500, 3500)`, whose endpoint 3500 is not attainable. -/
theorem C9_delay_range :
    (∀ r : Nat, 500 ≤ randomDelay r ∧ randomDelay r ≤ 3499)
      ∧ ∀ v : Nat, 500 ≤ v → v ≤ 3499 → ∃ r : Nat, randomDelay r = v := by
  constructor
  · intro r
    unfold randomDelay
    omega
  · intro v h1 h2
    refine ⟨v - 500, ?_⟩
    unfold randomDelay
    omega

/-- C9, witness: the endpoint 3499 of the corrected interval is attained. -/
theorem C9_delay_range_witness : ∃ r : Nat, randomDelay r = 3499 :=
  C9_delay_range.2 3499 (by norm_num) (by norm_num)

/-- C10: whenever a round with measured time `T ≥ 2^16` wins (declares a
record), the value persisted through `set_high_score`'s `uint16_t`
parameter — and used as the high score thereafter — is `T % 2^16`,
strictly smaller than the true measured time. -/
theorem C10_truncated_high_score (store : Nat → Nat) (T : Nat)
    (hT : 65536 ≤ T) (hw : (gameRound store T).2 = true) :
    read_high_score (gameRound store T).1 = T % 65536
      ∧ read_high_score (gameRound store T).1 < T := by
  unfold gameRound at hw ⊢
  by_cases hb : newRecord (read_high_score store) T = true
  · rw [if_pos hb]
    refine ⟨read_high_score_set store T, ?_⟩
    rw [read_high_score_set store T]
    omega
  · rw [if_neg hb] at hw
    exact absurd hw (by simp)

/-- C10, witness: with stored high score 0 and measured time 70000 ms the
round wins and persists `70000 % 65536 = 4464 < 70000`. -/
theorem C10_truncated_high_score_witness :
    read_high_score (gameRound zeroStore 70000).1 = 70000 % 65536
      ∧ read_high_score (gameRound zeroStore 70000).1 < 70000 :=
  C10_truncated_high_score zeroStore 70000 (by norm_num) (by decide)

end Reflex
